import Mathlib

/-!
Shallow embedding of the appointment-list component of the
`fronttypebotagendamento` front-end (src/src/components/AppointmentList.js,
second variant: the one with search and multi-select cancellation).

The component keeps five pieces of state: the fetched appointment list, a
loading flag, an error message, a search term, and the list of selected
appointment identifiers.  The operations embedded here are:

  * `fetchAppointments` — the refresh routine (null-user guard, backend read,
    client-side sort, error handling);
  * `filteredAppointments` — the client-side phone-number substring filter;
  * `toggleSelection` — the per-row checkbox handler (rendered only for rows
    whose status is not `cancelado`);
  * `selectAllVisible` — the header checkbox handler;
  * `cancelSelected` — the bulk-cancel handler
    (`handleCancelSelectedAppointments`);
  * `setSearchTerm` — the search input handler.

Timestamps (`scheduled_for`) are modelled as integers (milliseconds since the
epoch), matching the numeric coercion `new Date(a.scheduled_for) -
new Date(b.scheduled_for)` the comparator performs.  Backend interactions are
modelled by passing the response in (`Except String …`) and recording the
issued calls in the result.
-/

/-- A row of the `scheduled_messages` table, as consumed by the component. -/
structure Appointment where
  id : Nat
  user_id : String
  phone_number : String
  message_text : String
  scheduled_for : Int
  status : String
deriving Repr, DecidableEq

/-- The nullable `user` prop; `id` is nullable and the empty string is falsy
in JS, so `!user.id` is modelled by `Option` plus an emptiness check. -/
structure User where
  id : Option String
deriving Repr, DecidableEq

/-- The JS guard `!user || !user.id`. -/
def userHasId : Option User → Bool
  | none => false
  | some u =>
    match u.id with
    | none => false
    | some uid => uid != ""

/-- The component state: `appointments`, `loading`, `error`, `searchTerm`,
`selectedAppointments`. -/
structure ComponentState where
  appointments : List Appointment
  loading : Bool
  error : Option String
  searchTerm : String
  selectedAppointments : List Nat
deriving Repr, DecidableEq

/-- Backend calls issued by the component, as recorded by the embedding. -/
inductive BackendCall where
  | fetchQuery (userId : String)
  | updateCancel (ids : List Nat) (userId : String)
deriving Repr, DecidableEq

/-- The sort comparator passed to `Array.prototype.sort` in
`fetchAppointments`: `-1` for (pending, cancelado), `1` for
(cancelado, pending), otherwise the difference of the scheduled dates. -/
def appointmentCmp (a b : Appointment) : Int :=
  if a.status = "pending" ∧ b.status = "cancelado" then -1
  else if a.status = "cancelado" ∧ b.status = "pending" then 1
  else a.scheduled_for - b.scheduled_for

/-- `a` sorts no later than `b` under the comparator. -/
def apptLE (a b : Appointment) : Prop := appointmentCmp a b ≤ 0

instance : DecidableRel apptLE :=
  fun a b => inferInstanceAs (Decidable (appointmentCmp a b ≤ 0))

/-- The client-side sort: `Array.prototype.sort` is stable (ES2019), and with
a comparator that is consistent on the fetched domain any stable sort agrees
with stable insertion sort. -/
def sortAppointments (l : List Appointment) : List Appointment :=
  List.insertionSort apptLE l

/-- `fetchAppointments` (the refresh routine).  Given the `user` prop, the
backend response for this call, and the prior state, it returns the resulting
state and the backend calls issued.  With no identified user it clears the
list and the loading flag and returns without fetching; otherwise it issues
the read, and on error stores the message and clears the list, on success
stores the sorted data and clears the error. -/
def fetchAppointments (user : Option User) (result : Except String (List Appointment))
    (s : ComponentState) : ComponentState × List BackendCall :=
  match user with
  | none => ({ s with appointments := [], loading := false }, [])
  | some u =>
    match u.id with
    | none => ({ s with appointments := [], loading := false }, [])
    | some uid =>
      if uid = "" then ({ s with appointments := [], loading := false }, [])
      else
        match result with
        | .error msg =>
          ({ s with error := some msg, appointments := [], loading := false },
            [.fetchQuery uid])
        | .ok data =>
          ({ s with error := none, appointments := sortAppointments data, loading := false },
            [.fetchQuery uid])

/-- `filteredAppointments`: the rows displayed, i.e. the fetched rows whose
`phone_number` contains the search term as a (case-sensitive) substring,
mirroring `app.phone_number.includes(searchTerm)`. -/
def filteredAppointments (s : ComponentState) : List Appointment :=
  s.appointments.filter
    (fun app => decide (List.IsInfix s.searchTerm.toList app.phone_number.toList))

/-- The search input handler: only the search term changes. -/
def setSearchTerm (s : ComponentState) (t : String) : ComponentState :=
  { s with searchTerm := t }

/-- Identifiers offered for selection: the displayed rows whose status is not
`cancelado` (the row checkbox is rendered only for those). -/
def selectableIds (s : ComponentState) : List Nat :=
  ((filteredAppointments s).filter (fun app => app.status != "cancelado")).map
    (fun app => app.id)

/-- The per-row checkbox handler.  The checkbox exists only for a displayed
row whose status is not `cancelado`; clicking it removes the row's id when
present (`selectedAppointments.filter(id => id !== app.id)`) and appends it
otherwise (`[...selectedAppointments, app.id]`). -/
def toggleSelection (s : ComponentState) (a : Appointment) : ComponentState :=
  if a ∈ filteredAppointments s ∧ a.status ≠ "cancelado" then
    if a.id ∈ s.selectedAppointments then
      { s with selectedAppointments := s.selectedAppointments.filter (fun i => i != a.id) }
    else
      { s with selectedAppointments := s.selectedAppointments ++ [a.id] }
  else s

/-- The header checkbox handler: checked sets the selection to the ids of the
displayed non-cancelled rows, unchecked clears it. -/
def selectAllVisible (s : ComponentState) (checked : Bool) : ComponentState :=
  if checked then { s with selectedAppointments := selectableIds s }
  else { s with selectedAppointments := [] }

/-- A user-facing selection event: a row checkbox click or a header checkbox
change. -/
inductive SelOp where
  | toggle (a : Appointment)
  | selectAll (checked : Bool)
deriving Repr

/-- Apply one selection event to the state. -/
def applySelOp (s : ComponentState) : SelOp → ComponentState
  | .toggle a => toggleSelection s a
  | .selectAll c => selectAllVisible s c

/-- Apply a sequence of selection events. -/
def applySelOps (s : ComponentState) (ops : List SelOp) : ComponentState :=
  ops.foldl applySelOp s

/-- Outcome of the bulk-cancel handler: resulting state, backend calls
issued, the alert shown (if any), and whether a refresh was triggered. -/
structure CancelOutcome where
  state : ComponentState
  calls : List BackendCall
  notice : Option String
  refreshTriggered : Bool
deriving Repr, DecidableEq

/-- `handleCancelSelectedAppointments`.  With an empty selection it alerts
and returns.  Otherwise, if the confirmation dialog is accepted, it issues
one batch update (`id in selection AND user_id = uid`); on error it alerts
the message and changes nothing, on success it alerts, clears the selection
and triggers a refresh. -/
def cancelSelected (uid : String) (confirmed : Bool)
    (updateResult : Except String Unit) (s : ComponentState) : CancelOutcome :=
  if s.selectedAppointments = [] then
    { state := s, calls := [], notice := some "Nenhum agendamento selecionado para cancelar.",
      refreshTriggered := false }
  else if confirmed then
    match updateResult with
    | .error msg =>
      { state := s, calls := [.updateCancel s.selectedAppointments uid],
        notice := some ("Erro ao cancelar agendamentos selecionados: " ++ msg),
        refreshTriggered := false }
    | .ok _ =>
      { state := { s with selectedAppointments := [] },
        calls := [.updateCancel s.selectedAppointments uid],
        notice := some (toString s.selectedAppointments.length ++
          " agendamento(s) cancelado(s) com sucesso!"),
        refreshTriggered := true }
  else
    { state := s, calls := [], notice := none, refreshTriggered := false }

/-- Statuses actually delivered by the fetch filter
(`status.eq.pending,and(status.eq.cancelado,…)`): every fetched row is
`pending` or `cancelado`. -/
def goodPC (a : Appointment) : Prop :=
  a.status = "pending" ∨ a.status = "cancelado"

instance : DecidablePred goodPC :=
  fun a => inferInstanceAs (Decidable (a.status = "pending" ∨ a.status = "cancelado"))

/-- The (pending, cancelado) / (cancelado, pending) pairing on which the
status tier of the comparator fires. -/
def pairingPC (a b : Appointment) : Prop :=
  (a.status = "pending" ∧ b.status = "cancelado") ∨
    (a.status = "cancelado" ∧ b.status = "pending")

instance : ∀ a b, Decidable (pairingPC a b) :=
  fun _ _ => inferInstanceAs (Decidable (_ ∨ _))

/-- The comparator relation is total on all records: the date tier compares
antisymmetrically and the status tier fires symmetrically. -/
lemma apptLE_total (a b : Appointment) : apptLE a b ∨ apptLE b a := by
  unfold apptLE appointmentCmp
  by_cases hab : a.status = "pending" ∧ b.status = "cancelado"
  · simp only [hab, if_pos]
    left; norm_num
  · by_cases hba : b.status = "pending" ∧ a.status = "cancelado"
    · simp only [hba, if_pos, if_neg hab]
      have : ¬(a.status = "pending" ∧ b.status = "cancelado") := hab
      right; norm_num
    · have h1 : ¬(a.status = "cancelado" ∧ b.status = "pending") := by
        intro h; exact hba ⟨h.2, h.1⟩
      have h2 : ¬(b.status = "cancelado" ∧ a.status = "pending") := by
        intro h; exact hab ⟨h.2, h.1⟩
      simp only [if_neg hab, if_neg h1, if_neg hba, if_neg h2]
      omega

/-- On records the fetch filter can deliver (status `pending` or
`cancelado`), the comparator relation is transitive. -/
lemma apptLE_trans_pc {a b c : Appointment} (ha : goodPC a) (hb : goodPC b)
    (hc : goodPC c) (hab : apptLE a b) (hbc : apptLE b c) : apptLE a c := by
  unfold apptLE appointmentCmp at *
  have hpc : ("pending" : String) ≠ "cancelado" := by decide
  rcases ha with ha | ha <;> rcases hb with hb | hb <;> rcases hc with hc | hc <;>
    simp only [ha, hb, hc, hpc, hpc.symm, and_true, and_false, true_and, false_and,
      if_true, if_false, ite_true, ite_false, and_self] at * <;> omega

/-- `apptLE` restricted to fetched statuses, stated pointwise for reuse in
sortedness proofs. -/
lemma apptLE_of_not_le {a b : Appointment} (h : ¬ apptLE a b) : apptLE b a :=
  (apptLE_total a b).resolve_left h

lemma mem_sortAppointments {a : Appointment} {l : List Appointment} :
    a ∈ sortAppointments l ↔ a ∈ l :=
  (List.perm_insertionSort apptLE l).mem_iff

/-- Inserting a fetched-status record into a sorted list of fetched-status
records keeps it sorted. -/
lemma orderedInsert_sorted_pc {a : Appointment} {l : List Appointment}
    (ha : goodPC a) (hl : ∀ x ∈ l, goodPC x) (hs : l.Sorted apptLE) :
    (List.orderedInsert apptLE a l).Sorted apptLE := by
  induction l with
  | nil => simp [List.orderedInsert]
  | cons b t ih =>
    rw [List.orderedInsert]
    by_cases hab : apptLE a b
    · rw [if_pos hab]
      have hs' := List.sorted_cons.mp hs
      refine List.sorted_cons.mpr ⟨?_, hs⟩
      intro x hx
      rcases List.mem_cons.mp hx with hx | hx
      · subst hx; exact hab
      · exact apptLE_trans_pc ha (hl b (by simp)) (hl x (by simp [hx])) hab
          (hs'.1 x hx)
    · rw [if_neg hab]
      have hs' := List.sorted_cons.mp hs
      refine List.sorted_cons.mpr
        ⟨?_, ih (fun x hx => hl x (by simp [hx])) hs'.2⟩
      intro x hx
      rw [List.mem_orderedInsert] at hx
      rcases hx with hx | hx
      · subst hx; exact apptLE_of_not_le hab
      · exact hs'.1 x hx

/-- The client-side sort yields a list sorted by the comparator relation,
provided every record has a fetched status. -/
lemma sortAppointments_sorted {l : List Appointment}
    (hl : ∀ x ∈ l, goodPC x) : (sortAppointments l).Sorted apptLE := by
  induction l with
  | nil => simp [sortAppointments, List.insertionSort]
  | cons a t ih =>
    rw [sortAppointments, List.insertionSort]
    refine orderedInsert_sorted_pc (hl a (by simp)) ?_
      (ih (fun x hx => hl x (by simp [hx])))
    intro x hx
    have : x ∈ t := mem_sortAppointments.mp hx
    exact hl x (by simp [this])

/-- The guard `!user || !user.id`: with no identified user, the refresh
clears the list, stops loading, touches nothing else and issues no call. -/
lemma fetch_guard_eq (user : Option User) (result : Except String (List Appointment))
    (s : ComponentState) (h : userHasId user = false) :
    fetchAppointments user result s =
      ({ s with appointments := [], loading := false }, []) := by
  cases user with
  | none => rfl
  | some u =>
    cases u with
    | mk oid =>
      cases oid with
      | none => rfl
      | some uid =>
        have h' : (uid != "") = false := h
        have huid : uid = "" := by simpa using h'
        subst huid
        simp [fetchAppointments]

/-- C1: after a successful refresh with an identified user, the stored list
is the fetched set sorted by the two-tier comparator: it is a permutation of
the fetched set in which no `cancelado` record precedes a `pending` record,
and every pair not in the (pending, cancelado) pairing appears in ascending
`scheduled_for` order (fetched records all have status `pending` or
`cancelado`, as the fetch filter guarantees). -/
theorem refresh_stores_sorted (uid : String) (data : List Appointment)
    (s : ComponentState) (huid : uid ≠ "")
    (hdata : ∀ a ∈ data, goodPC a) :
    (fetchAppointments (some ⟨some uid⟩) (.ok data) s).1.appointments =
      sortAppointments data ∧
    (sortAppointments data).Perm data ∧
    (sortAppointments data).Pairwise (fun a b =>
      ¬(a.status = "cancelado" ∧ b.status = "pending") ∧
      (¬ pairingPC a b → a.scheduled_for ≤ b.scheduled_for)) := by
  refine ⟨by simp [fetchAppointments, huid], List.perm_insertionSort apptLE data, ?_⟩
  have hs : (sortAppointments data).Pairwise apptLE := sortAppointments_sorted hdata
  refine List.Pairwise.imp_of_mem ?_ hs
  intro a b hma hmb hab
  have hga := hdata a (mem_sortAppointments.mp hma)
  have hgb := hdata b (mem_sortAppointments.mp hmb)
  constructor
  · intro hcp
    unfold apptLE appointmentCmp at hab
    rw [if_neg, if_pos hcp] at hab
    · omega
    · intro hcontra
      have : ("cancelado" : String) = "pending" := hcp.1.symm.trans hcontra.1
      exact absurd this (by decide)
  · intro hnp
    have h1 : ¬(a.status = "pending" ∧ b.status = "cancelado") := fun h => hnp (Or.inl h)
    have h2 : ¬(a.status = "cancelado" ∧ b.status = "pending") := fun h => hnp (Or.inr h)
    unfold apptLE appointmentCmp at hab
    rw [if_neg h1, if_neg h2] at hab
    omega

/-- Witness for C1 at the spec's scenario: one `pending` record with the
later timestamp and one `cancelado` record with the earlier one. -/
theorem refresh_stores_sorted_witness :
    (fetchAppointments (some ⟨some "u1"⟩)
        (.ok [⟨1, "u1", "11999", "m1", 100, "pending"⟩,
              ⟨2, "u1", "22999", "m2", 50, "cancelado"⟩])
        ⟨[], true, none, "", []⟩).1.appointments =
      sortAppointments [⟨1, "u1", "11999", "m1", 100, "pending"⟩,
                        ⟨2, "u1", "22999", "m2", 50, "cancelado"⟩] ∧
    (sortAppointments [⟨1, "u1", "11999", "m1", 100, "pending"⟩,
                       ⟨2, "u1", "22999", "m2", 50, "cancelado"⟩]).Perm
      [⟨1, "u1", "11999", "m1", 100, "pending"⟩,
       ⟨2, "u1", "22999", "m2", 50, "cancelado"⟩] ∧
    (sortAppointments [⟨1, "u1", "11999", "m1", 100, "pending"⟩,
                       ⟨2, "u1", "22999", "m2", 50, "cancelado"⟩]).Pairwise
      (fun a b => ¬(a.status = "cancelado" ∧ b.status = "pending") ∧
        (¬ pairingPC a b → a.scheduled_for ≤ b.scheduled_for)) :=
  refresh_stores_sorted "u1"
    [⟨1, "u1", "11999", "m1", 100, "pending"⟩,
     ⟨2, "u1", "22999", "m2", 50, "cancelado"⟩]
    ⟨[], true, none, "", []⟩ (by decide) (by decide)

/-- Selection events leave the fetched list and the search term untouched:
they only rewrite `selectedAppointments`. -/
lemma applySelOp_frame (s : ComponentState) (op : SelOp) :
    (applySelOp s op).appointments = s.appointments ∧
    (applySelOp s op).searchTerm = s.searchTerm := by
  cases op with
  | toggle a =>
    simp only [applySelOp, toggleSelection]
    split_ifs <;> exact ⟨rfl, rfl⟩
  | selectAll c =>
    simp only [applySelOp, selectAllVisible]
    split_ifs <;> exact ⟨rfl, rfl⟩

/-- Hence the selectable identifiers are unchanged by selection events. -/
lemma selectableIds_applySelOp (s : ComponentState) (op : SelOp) :
    selectableIds (applySelOp s op) = selectableIds s := by
  have h := applySelOp_frame s op
  unfold selectableIds filteredAppointments
  rw [h.1, h.2]

/-- One selection event only ever adds identifiers of displayed
non-cancelled rows. -/
lemma mem_selected_applySelOp {s : ComponentState} {op : SelOp} {i : Nat}
    (hi : i ∈ (applySelOp s op).selectedAppointments) :
    i ∈ s.selectedAppointments ∨ i ∈ selectableIds s := by
  cases op with
  | toggle a =>
    simp only [applySelOp, toggleSelection] at hi
    split_ifs at hi with h1 h2
    · left; exact List.mem_of_mem_filter hi
    · rcases List.mem_append.mp hi with h | h
      · left; exact h
      · right
        have hia : i = a.id := by simpa using h
        subst hia
        unfold selectableIds
        refine List.mem_map.mpr ⟨a, ?_, rfl⟩
        refine List.mem_filter.mpr ⟨h1.1, ?_⟩
        simpa [bne_iff_ne] using h1.2
    · left; exact hi
  | selectAll c =>
    simp only [applySelOp, selectAllVisible] at hi
    split_ifs at hi
    · right; exact hi
    · simp at hi

/-- Along any sequence of selection events, the selection set stays inside
the selectable identifiers of the starting state. -/
lemma selected_subset_selectable (ops : List SelOp) (s : ComponentState)
    (h : ∀ i ∈ s.selectedAppointments, i ∈ selectableIds s) :
    ∀ i ∈ (applySelOps s ops).selectedAppointments, i ∈ selectableIds s := by
  induction ops generalizing s with
  | nil => exact h
  | cons op rest ih =>
    intro i hi
    rw [applySelOps, List.foldl_cons] at hi
    have hstep : ∀ j ∈ (applySelOp s op).selectedAppointments,
        j ∈ selectableIds (applySelOp s op) := by
      intro j hj
      rw [selectableIds_applySelOp]
      rcases mem_selected_applySelOp hj with h' | h'
      · exact h j h'
      · exact h'
    have hmem := ih (applySelOp s op) hstep i hi
    rw [selectableIds_applySelOp] at hmem
    exact hmem

/-- C3: starting from an empty selection, a `cancelado` record's identifier
never enters the selection set under any sequence of row-checkbox toggles
and header-checkbox changes, as long as identifiers are unique (the row
checkbox is simply not rendered for cancelled rows, and select-all filters
them out). -/
theorem cancelled_never_selected (s : ComponentState) (ops : List SelOp)
    (r : Appointment) (hempty : s.selectedAppointments = [])
    (hnodup : (s.appointments.map (fun a => a.id)).Nodup)
    (hr : r ∈ s.appointments) (hrc : r.status = "cancelado") :
    r.id ∉ (applySelOps s ops).selectedAppointments := by
  intro hmem
  have h0 : ∀ i ∈ s.selectedAppointments, i ∈ selectableIds s := by
    rw [hempty]; intro i hi; simp at hi
  have hsel := selected_subset_selectable ops s h0 r.id hmem
  unfold selectableIds at hsel
  rcases List.mem_map.mp hsel with ⟨a, hafilter, haid⟩
  have hafm := List.mem_filter.mp hafilter
  have hav : a ∈ s.appointments := by
    have hf : a ∈ filteredAppointments s := hafm.1
    unfold filteredAppointments at hf
    exact List.mem_of_mem_filter hf
  have har : a = r := List.inj_on_of_nodup_map hnodup hav hr haid
  have : a.status ≠ "cancelado" := by simpa [bne_iff_ne] using hafm.2
  exact this (har ▸ hrc)

/-- Witness for C3: a pending and a cancelled row, toggling the pending row
then selecting all; identifier 2 (the cancelled row) never appears. -/
theorem cancelled_never_selected_witness :
    (⟨2, "u1", "22999", "m2", 50, "cancelado"⟩ : Appointment).id ∉
      (applySelOps
        ⟨[⟨1, "u1", "11999", "m1", 100, "pending"⟩,
          ⟨2, "u1", "22999", "m2", 50, "cancelado"⟩], false, none, "", []⟩
        [SelOp.toggle ⟨1, "u1", "11999", "m1", 100, "pending"⟩,
         SelOp.selectAll true]).selectedAppointments :=
  cancelled_never_selected
    ⟨[⟨1, "u1", "11999", "m1", 100, "pending"⟩,
      ⟨2, "u1", "22999", "m2", 50, "cancelado"⟩], false, none, "", []⟩
    [SelOp.toggle ⟨1, "u1", "11999", "m1", 100, "pending"⟩,
     SelOp.selectAll true]
    ⟨2, "u1", "22999", "m2", 50, "cancelado"⟩
    rfl (by decide) (by decide) rfl

/-- C4: the code does not re-intersect the selection set when the visible
set changes.  Concretely: with row 1 selected, changing the search term to
one its phone number does not contain leaves 1 selected even though no
displayed row carries identifier 1. -/
theorem stale_selection_after_search_change :
    1 ∈ (setSearchTerm
          ⟨[⟨1, "u1", "11999", "m", 100, "pending"⟩], false, none, "", [1]⟩
          "229").selectedAppointments ∧
    filteredAppointments
      (setSearchTerm
        ⟨[⟨1, "u1", "11999", "m", 100, "pending"⟩], false, none, "", [1]⟩
        "229") = [] := by
  decide

/-- C5: checking the header checkbox makes the selection exactly the
identifiers of the displayed non-cancelled rows; unchecking clears it; in
particular check-then-uncheck empties the selection from any state. -/
theorem selectAllVisible_contract (s : ComponentState) :
    (∀ i, i ∈ (selectAllVisible s true).selectedAppointments ↔
      ∃ a, a ∈ filteredAppointments s ∧ a.status ≠ "cancelado" ∧ a.id = i) ∧
    (selectAllVisible s false).selectedAppointments = [] ∧
    (selectAllVisible (selectAllVisible s true) false).selectedAppointments = [] := by
  refine ⟨?_, rfl, rfl⟩
  intro i
  simp only [selectAllVisible, if_pos, selectableIds]
  constructor
  · intro hi
    rcases List.mem_map.mp hi with ⟨a, haf, haid⟩
    have h := List.mem_filter.mp haf
    exact ⟨a, h.1, by simpa [bne_iff_ne] using h.2, haid⟩
  · rintro ⟨a, haf, hanc, haid⟩
    exact List.mem_map.mpr ⟨a, List.mem_filter.mpr ⟨haf, by simpa [bne_iff_ne] using hanc⟩, haid⟩

/-- C2 counterexample: over the full status domain the comparator relation
is not transitive — a legacy-status record can sit between a `cancelado`
and a `pending` record and close a cycle. -/
theorem comparator_not_transitive_counterexample :
    apptLE ⟨1, "u", "p", "m", 1, "cancelado"⟩ ⟨2, "u", "p", "m", 5, "sent"⟩ ∧
    apptLE ⟨2, "u", "p", "m", 5, "sent"⟩ ⟨3, "u", "p", "m", 10, "pending"⟩ ∧
    ¬ apptLE ⟨1, "u", "p", "m", 1, "cancelado"⟩ ⟨3, "u", "p", "m", 10, "pending"⟩ := by
  decide

/-- C2 amended: the comparator relation is total on all records, and on the
statuses the fetch can deliver (`pending`/`cancelado`) it is transitive and
antisymmetric up to ties (mutually ≤ records share status and timestamp), so
there it is a total preorder and sorting is unique up to ties. -/
theorem comparator_total_preorder_pc (a b c : Appointment)
    (ha : goodPC a) (hb : goodPC b) (hc : goodPC c) :
    (apptLE a b ∨ apptLE b a) ∧
    (apptLE a b → apptLE b c → apptLE a c) ∧
    (apptLE a b → apptLE b a → a.status = b.status ∧
      a.scheduled_for = b.scheduled_for) := by
  refine ⟨apptLE_total a b, fun hab hbc => apptLE_trans_pc ha hb hc hab hbc, ?_⟩
  intro hab hba
  unfold apptLE appointmentCmp at hab hba
  have hpc : ("pending" : String) ≠ "cancelado" := by decide
  rcases ha with ha | ha <;> rcases hb with hb | hb <;>
    simp only [ha, hb, hpc, hpc.symm, and_true, and_false, true_and, false_and,
      if_true, if_false, ite_true, ite_false, and_self] at hab hba ⊢ <;>
    omega

/-- Witness for the amended C2 at three concrete fetched-status records. -/
theorem comparator_total_preorder_pc_witness :
    (apptLE ⟨1, "u", "p", "m", 3, "pending"⟩ ⟨2, "u", "p", "m", 7, "pending"⟩ ∨
      apptLE ⟨2, "u", "p", "m", 7, "pending"⟩ ⟨1, "u", "p", "m", 3, "pending"⟩) ∧
    (apptLE ⟨1, "u", "p", "m", 3, "pending"⟩ ⟨2, "u", "p", "m", 7, "pending"⟩ →
      apptLE ⟨2, "u", "p", "m", 7, "pending"⟩ ⟨3, "u", "p", "m", 9, "cancelado"⟩ →
      apptLE ⟨1, "u", "p", "m", 3, "pending"⟩ ⟨3, "u", "p", "m", 9, "cancelado"⟩) ∧
    (apptLE ⟨1, "u", "p", "m", 3, "pending"⟩ ⟨2, "u", "p", "m", 7, "pending"⟩ →
      apptLE ⟨2, "u", "p", "m", 7, "pending"⟩ ⟨1, "u", "p", "m", 3, "pending"⟩ →
      (⟨1, "u", "p", "m", 3, "pending"⟩ : Appointment).status =
        (⟨2, "u", "p", "m", 7, "pending"⟩ : Appointment).status ∧
      (⟨1, "u", "p", "m", 3, "pending"⟩ : Appointment).scheduled_for =
        (⟨2, "u", "p", "m", 7, "pending"⟩ : Appointment).scheduled_for) :=
  comparator_total_preorder_pc _ _ _ (by decide) (by decide) (by decide)

/-- C6: bulk cancel.  With an empty selection nothing happens apart from an
alert: no backend call, state untouched, no refresh.  With a non-empty
selection and a confirmed dialog, a failing batch update reports the error
and leaves the state (in particular the selection) unchanged, while a
successful one clears the selection and triggers a refresh. -/
theorem cancelSelected_contract (uid : String) (s : ComponentState)
    (confirmed : Bool) (res : Except String Unit) :
    (s.selectedAppointments = [] →
      cancelSelected uid confirmed res s =
        ⟨s, [], some "Nenhum agendamento selecionado para cancelar.", false⟩) ∧
    (∀ msg, s.selectedAppointments ≠ [] → confirmed = true → res = .error msg →
      cancelSelected uid confirmed res s =
        ⟨s, [.updateCancel s.selectedAppointments uid],
          some ("Erro ao cancelar agendamentos selecionados: " ++ msg), false⟩) ∧
    (s.selectedAppointments ≠ [] → confirmed = true → res = .ok () →
      cancelSelected uid confirmed res s =
        ⟨{ s with selectedAppointments := [] },
          [.updateCancel s.selectedAppointments uid],
          some (toString s.selectedAppointments.length ++
            " agendamento(s) cancelado(s) com sucesso!"), true⟩) := by
  refine ⟨?_, ?_, ?_⟩
  · intro h
    simp [cancelSelected, h]
  · intro msg hne hc hres
    subst hc; subst hres
    simp [cancelSelected, hne]
  · intro hne hc hres
    subst hc; subst hres
    simp [cancelSelected, hne]

/-- Witness for C6: the three branches at concrete states. -/
theorem cancelSelected_contract_witness :
    cancelSelected "u1" true (.ok ()) ⟨[], false, none, "", []⟩ =
      ⟨⟨[], false, none, "", []⟩, [],
        some "Nenhum agendamento selecionado para cancelar.", false⟩ ∧
    cancelSelected "u1" true (.error "boom") ⟨[], false, none, "", [5]⟩ =
      ⟨⟨[], false, none, "", [5]⟩, [.updateCancel [5] "u1"],
        some ("Erro ao cancelar agendamentos selecionados: " ++ "boom"), false⟩ ∧
    cancelSelected "u1" true (.ok ()) ⟨[], false, none, "", [5]⟩ =
      ⟨⟨[], false, none, "", []⟩, [.updateCancel [5] "u1"],
        some (toString ([5] : List Nat).length ++
          " agendamento(s) cancelado(s) com sucesso!"), true⟩ :=
  ⟨(cancelSelected_contract "u1" ⟨[], false, none, "", []⟩ true (.ok ())).1 rfl,
   (cancelSelected_contract "u1" ⟨[], false, none, "", [5]⟩ true
      (.error "boom")).2.1 "boom" (by decide) rfl rfl,
   (cancelSelected_contract "u1" ⟨[], false, none, "", [5]⟩ true
      (.ok ())).2.2 (by decide) rfl rfl⟩

/-- C7: with an absent identity (no user, no id, or an empty id) the refresh
yields an empty visible list, clears the loading flag, and issues no
backend call. -/
theorem refresh_null_user (user : Option User)
    (result : Except String (List Appointment)) (s : ComponentState)
    (h : userHasId user = false) :
    fetchAppointments user result s =
      ({ s with appointments := [], loading := false }, []) :=
  fetch_guard_eq user result s h

/-- Witness for C7 at a null user. -/
theorem refresh_null_user_witness :
    fetchAppointments none (.ok []) ⟨[], true, none, "", []⟩ =
      ({ appointments := [], loading := false, error := none, searchTerm := "",
         selectedAppointments := [] }, []) :=
  refresh_null_user none (.ok []) ⟨[], true, none, "", []⟩ rfl

/-- C8: when the backend read fails, the refresh stores the error message,
empties the visible list and clears the loading flag (the read itself was
issued). -/
theorem refresh_fetch_error (uid msg : String) (s : ComponentState)
    (h : uid ≠ "") :
    fetchAppointments (some ⟨some uid⟩) (.error msg) s =
      ({ s with error := some msg, appointments := [], loading := false },
        [.fetchQuery uid]) := by
  simp [fetchAppointments, h]

/-- Witness for C8 at a concrete failing read. -/
theorem refresh_fetch_error_witness :
    fetchAppointments (some ⟨some "u1"⟩) (.error "boom")
        ⟨[⟨1, "u1", "11999", "m", 100, "pending"⟩], true, none, "", []⟩ =
      ({ appointments := [], loading := false, error := some "boom",
         searchTerm := "", selectedAppointments := [] },
        [.fetchQuery "u1"]) :=
  refresh_fetch_error "u1" "boom"
    ⟨[⟨1, "u1", "11999", "m", 100, "pending"⟩], true, none, "", []⟩ (by decide)

/-- C9: the displayed rows are exactly the fetched rows whose phone number
contains the search term as a case-sensitive substring, in fetched order
(the filter is a sublist, so order is preserved and state untouched). -/
theorem searchFilter_spec (s : ComponentState) :
    (filteredAppointments s).Sublist s.appointments ∧
    ∀ a, a ∈ filteredAppointments s ↔
      a ∈ s.appointments ∧
        List.IsInfix s.searchTerm.toList a.phone_number.toList := by
  constructor
  · exact List.filter_sublist _
  · intro a
    unfold filteredAppointments
    simp [List.mem_filter]

/-- C10: with an absent identity the refresh leaves the error field exactly
as it was — a previously stored fetch error survives — while the list is
cleared and loading stops; the error field is reset (to none or to the new
message) only by a refresh that actually issues the read. -/
theorem refresh_null_user_keeps_error (user : Option User)
    (result : Except String (List Appointment)) (s : ComponentState)
    (m : String) (h : userHasId user = false) (he : s.error = some m) :
    (fetchAppointments user result s).1.error = some m ∧
    (fetchAppointments user result s).1.appointments = [] ∧
    (fetchAppointments user result s).1.loading = false := by
  rw [fetch_guard_eq user result s h]
  exact ⟨he, rfl, rfl⟩

/-- Witness for C10: a stale error message survives a null-user refresh. -/
theorem refresh_null_user_keeps_error_witness :
    (fetchAppointments none (.ok []) ⟨[], true, some "old failure", "", []⟩).1.error =
      some "old failure" ∧
    (fetchAppointments none (.ok []) ⟨[], true, some "old failure", "", []⟩).1.appointments = [] ∧
    (fetchAppointments none (.ok []) ⟨[], true, some "old failure", "", []⟩).1.loading = false :=
  refresh_null_user_keeps_error none (.ok [])
    ⟨[], true, some "old failure", "", []⟩ "old failure" rfl rfl
